import Mathlib

/-!
Verification of the ledger core of `streamlit_app.py` (travel-expense).

The file shallowly embeds the pure content of the source functions:

* `write_to_github_file`   — the record encoder (one line of text per record)
  and the append-or-create write;
* `read_and_parse_records_to_df` — the regex-based decoder, modelled by a
  backtracking matcher with Python's leftmost / lazy / greedy semantics;
* `execute_github_action`  — delete/update by full-file rewrite;
* `convert_currency` and the submission path of `render_submission_page`;
* `calculate_and_display_summary` — totals per user.

Machine floats only ever carry amounts that the program renders with
`%.2f`; amounts are therefore embedded as integer cents (`Nat`) on the
codec side and as `ℚ` on the arithmetic side.
-/

set_option maxRecDepth 8192

namespace TravelExpense

/-! ### Character classes (Python `\d`, `[A-Z]`, `\s`, `str.strip`) -/

/-- ASCII decimal digit, the digits matched by the patterns used here. -/
def isDigitC (c : Char) : Bool := decide (48 ≤ c.toNat ∧ c.toNat ≤ 57)

/-- ASCII uppercase letter, Python's `[A-Z]`. -/
def isUpperC (c : Char) : Bool := decide (65 ≤ c.toNat ∧ c.toNat ≤ 90)

/-- ASCII whitespace recognised by Python's `\s` and `str.strip()`. -/
def pyIsSpace (c : Char) : Bool :=
  decide (c = ' ' ∨ c = '\t' ∨ c = '\n' ∨ c = '\r' ∨ c = '\x0b' ∨ c = '\x0c')

/-- Python `str.strip()` on a character list. -/
def pstripChars (s : List Char) : List Char :=
  ((s.dropWhile pyIsSpace).reverse.dropWhile pyIsSpace).reverse

/-- Python `str.split('\n')` (note `"".split('\n') == [""]`). -/
def pySplitLines (s : List Char) : List (List Char) := s.splitOn '\n'

/-! ### Decimal rendering (`%.2f` on 2-decimal values) and `float()` -/

/-- Digit character for `d < 10`. -/
def toDigitChar (d : Nat) : Char := Char.ofNat (48 + d)

/-- Decimal digits, most significant first; structural recursion on fuel
so that the kernel can evaluate it. -/
def natCharsAux : Nat → Nat → List Char
  | 0, _ => []
  | fuel + 1, n =>
    if n < 10 then [toDigitChar n]
    else natCharsAux fuel (n / 10) ++ [toDigitChar (n % 10)]

/-- Decimal digits of a natural number, most significant first. -/
def natChars (n : Nat) : List Char := natCharsAux (n + 1) n

/-- Two zero-padded digits (the fractional part of `%.2f`). -/
def pad2Chars (m : Nat) : List Char := [toDigitChar (m / 10), toDigitChar (m % 10)]

/-- `f"{x:.2f}"` for the exact 2-decimal value of `n` cents. -/
def fmtCentsChars (n : Nat) : List Char :=
  natChars (n / 100) ++ '.' :: pad2Chars (n % 100)

/-- Numeric value of a digit list. -/
def digitsVal (l : List Char) : Nat :=
  l.foldl (fun a c => a * 10 + (c.toNat - 48)) 0

/-- Python `float()` on the decimal fragment `digits [. digits]` that the
ledger ever produces; any other shape is a `ValueError` (`none`). -/
def pyFloat? (s : List Char) : Option ℚ :=
  let intPart := s.takeWhile isDigitC
  let rest := s.drop intPart.length
  match rest with
  | [] => if intPart = [] then none else some (digitsVal intPart)
  | '.' :: frac =>
      if frac.all isDigitC ∧ (intPart ≠ [] ∨ frac ≠ []) then
        some (mkRat (digitsVal intPart * 10 ^ frac.length + digitsVal frac) (10 ^ frac.length))
      else none
  | _ => none

/-! ### Backtracking matcher

The pattern of `read_and_parse_records_to_df` is fixed, so it is embedded
as a hand-rolled matcher with exactly Python's semantics: `(.*?)` tries
the shortest capture first and extends on failure of the continuation
(`lazyDot`); `\s*` tries the longest run first and gives back on failure
(`greedyStar`); literals and counted classes are exact. -/

/-- `(.*?)` followed by continuation `k`: shortest-first, `.` excludes
newline.  Returns the captured prefix and the continuation's result. -/
def lazyDot (k : List Char → Option α) : List Char → Option (List Char × α)
  | [] =>
    match k [] with
    | some a => some ([], a)
    | none => none
  | c :: rest =>
    match k (c :: rest) with
    | some a => some ([], a)
    | none =>
      if c = '\n' then none
      else
        match lazyDot k rest with
        | some (pre, a) => some (c :: pre, a)
        | none => none

/-- Greedy `p*` followed by continuation `k`: longest-first with backtracking. -/
def greedyStar (p : Char → Bool) (k : List Char → Option α) : List Char → Option α
  | [] => k []
  | c :: rest =>
    if p c then
      match greedyStar p k rest with
      | some a => some a
      | none => k (c :: rest)
    else k (c :: rest)

/-- Match a literal and continue past it. -/
def dropLit (d s : List Char) : Option (List Char) :=
  if d.isPrefixOf s then some (s.drop d.length) else none

/-- Match a fixed sequence of character classes, capturing the text. -/
def takeShape : List (Char → Bool) → List Char → Option (List Char × List Char)
  | [], s => some ([], s)
  | _ :: _, [] => none
  | p :: ps, c :: s =>
      if p c then
        match takeShape ps s with
        | some (f, r) => some (c :: f, r)
        | none => none
      else none

/-- `[A-Z]{3}` (the lazy `?` on a counted class changes nothing), capturing. -/
def take3Upper (k : List Char → Option α) : List Char → Option (List Char × α)
  | a :: b :: c :: rest =>
      if isUpperC a && isUpperC b && isUpperC c then
        match k rest with
        | some x => some ([a, b, c], x)
        | none => none
      else none
  | _ => none

/-- Shape of `\d{4}-\d{2}-\d{2} \d{2}:\d{2}:\d{2}`. -/
def tsShape : List (Char → Bool) :=
  [isDigitC, isDigitC, isDigitC, isDigitC, (· = '-'), isDigitC, isDigitC,
   (· = '-'), isDigitC, isDigitC, (· = ' '), isDigitC, isDigitC, (· = ':'),
   isDigitC, isDigitC, (· = ':'), isDigitC, isDigitC]

/-- Shape of `\d{4}-\d{2}-\d{2}`. -/
def dateShape : List (Char → Bool) :=
  [isDigitC, isDigitC, isDigitC, isDigitC, (· = '-'), isDigitC, isDigitC,
   (· = '-'), isDigitC, isDigitC]

/-! ### The pattern of `read_and_parse_records_to_df`, stage by stage

```
^\[(?P<timestamp>\d{4}-\d{2}-\d{2} \d{2}:\d{2}:\d{2})\] User: (?P<User>.*?),
 Shop: (?P<Shop>.*?), Total: (?P<Total>.*?)\s*(?P<Currency>[A-Z]{3}?),
 Date: (?P<Date>\d{4}-\d{2}-\d{2}), Remarks: (?P<Remarks>.*?),
 Shared: (?P<Shared>.*?),\s*OriginalAmount: (?P<OriginalAmount>.*?),\s*
 OriginalCurrency: (?P<OriginalCurrency>[A-Z]{3}?), \s*Conversion: (?P<Conversion>.*?)$
```

Each `mX` consumes from its group onward and returns the remaining
captures, innermost first. -/

/-- `Conversion: (.*?)$` — the final capture runs to the end of the line. -/
def mConv (s : List Char) : Option (List Char) :=
  match lazyDot (fun t => if t = [] then some () else none) s with
  | some (cv, _) => some cv
  | none => none

/-- `(?P<OriginalCurrency>[A-Z]{3}?), \s*Conversion: …` -/
def mOrigCur (s : List Char) : Option (List Char × List Char) :=
  take3Upper (fun t =>
    (dropLit (", ").data t).bind
      (greedyStar pyIsSpace (fun u => (dropLit ("Conversion: ").data u).bind mConv))) s

/-- `(?P<OriginalAmount>.*?),\s*OriginalCurrency: …` -/
def mOrigAmt (s : List Char) : Option (List Char × List Char × List Char) :=
  lazyDot (fun t =>
    (dropLit (",").data t).bind
      (greedyStar pyIsSpace (fun u => (dropLit ("OriginalCurrency: ").data u).bind mOrigCur))) s

/-- `(?P<Shared>.*?),\s*OriginalAmount: …` -/
def mShared (s : List Char) :
    Option (List Char × List Char × List Char × List Char) :=
  lazyDot (fun t =>
    (dropLit (",").data t).bind
      (greedyStar pyIsSpace (fun u => (dropLit ("OriginalAmount: ").data u).bind mOrigAmt))) s

/-- `(?P<Remarks>.*?), Shared: …` -/
def mRemarks (s : List Char) :
    Option (List Char × List Char × List Char × List Char × List Char) :=
  lazyDot (fun t => (dropLit (", Shared: ").data t).bind mShared) s

/-- `(?P<Date>\d{4}-\d{2}-\d{2}), Remarks: …` -/
def mDate (s : List Char) :
    Option (List Char × List Char × List Char × List Char × List Char × List Char) :=
  match takeShape dateShape s with
  | none => none
  | some (d, rest) =>
    match (dropLit (", Remarks: ").data rest).bind mRemarks with
    | some tl => some (d, tl)
    | none => none

/-- `(?P<Currency>[A-Z]{3}?), Date: …` -/
def mCur (s : List Char) :
    Option (List Char × List Char × List Char × List Char × List Char × List Char × List Char) :=
  take3Upper (fun t => (dropLit (", Date: ").data t).bind mDate) s

/-- `(?P<Total>.*?)\s*[A-Z]{3}…` -/
def mTotal (s : List Char) :
    Option (List Char × List Char × List Char × List Char × List Char × List Char ×
      List Char × List Char) :=
  lazyDot (fun t => greedyStar pyIsSpace mCur t) s

/-- `(?P<Shop>.*?), Total: …` -/
def mShop (s : List Char) :
    Option (List Char × List Char × List Char × List Char × List Char × List Char ×
      List Char × List Char × List Char) :=
  lazyDot (fun t => (dropLit (", Total: ").data t).bind mTotal) s

/-- `(?P<User>.*?), Shop: …` -/
def mUser (s : List Char) :
    Option (List Char × List Char × List Char × List Char × List Char × List Char ×
      List Char × List Char × List Char × List Char) :=
  lazyDot (fun t => (dropLit (", Shop: ").data t).bind mShop) s

/-- The eleven capture groups of one matched ledger line. -/
structure RawGroups where
  timestamp : List Char
  User : List Char
  Shop : List Char
  Total : List Char
  Currency : List Char
  Date : List Char
  Remarks : List Char
  Shared : List Char
  OriginalAmount : List Char
  OriginalCurrency : List Char
  Conversion : List Char
  deriving DecidableEq, Repr

/-- `pattern.match(line)`: the anchored match of the full pattern. -/
def matchLine (s : List Char) : Option RawGroups :=
  match dropLit ("[").data s with
  | none => none
  | some s1 =>
    match takeShape tsShape s1 with
    | none => none
    | some (ts, s2) =>
      match dropLit ("] User: ").data s2 with
      | none => none
      | some s3 =>
        match mUser s3 with
        | none => none
        | some (u, sh, t, c, d, r, sd, oa, oc, cv) =>
          some ⟨ts, u, sh, t, c, d, r, sd, oa, oc, cv⟩

/-! ### Records, encoder (`write_to_github_file`), decoder -/

/-- Configuration constants of the app. -/
def ALLOWED_USERS : List String := ["TWH", "TSH", "Olivia"]

/-- The single base currency everything is meant to be stored in. -/
def BASE_CURRENCY : String := "HKD"

/-- Currencies that trigger a conversion at submission time. -/
def TARGET_CURRENCIES : List String := ["JPY"]

/-- The fields of the `record_data` dict handed to `write_to_github_file`
(and, for updates, the `new_data` dict of `execute_github_action`).
Amounts are in cents: the program renders them with `%.2f`. -/
structure RecordData where
  user_name : String
  shop_name : String
  total_amount : Nat
  currency : String
  transaction_date : String
  remarks : String
  is_shared : String
  original_amount : Nat
  original_currency : String
  conversion_notes : String
  deriving DecidableEq, Repr, Inhabited

/-- One expense record as it sits on a ledger line: the data plus the
creation timestamp the encoder stamps in front. -/
structure ExpenseRecord extends RecordData where
  timestamp : String
  deriving DecidableEq, Repr, Inhabited

/-- The `record_text` f-string of `write_to_github_file` (without the
trailing `"\n"`), also the `new_line` f-string of `execute_github_action`. -/
def recordLineChars (ts : String) (d : RecordData) : List Char :=
  ("[").data ++ ts.data ++ ("] User: ").data ++ d.user_name.data ++
  (", Shop: ").data ++ d.shop_name.data ++
  (", Total: ").data ++ fmtCentsChars d.total_amount ++ (" ").data ++ d.currency.data ++
  (", Date: ").data ++ d.transaction_date.data ++
  (", Remarks: ").data ++ d.remarks.data ++
  (", Shared: ").data ++ d.is_shared.data ++
  (", OriginalAmount: ").data ++ fmtCentsChars d.original_amount ++
  (", OriginalCurrency: ").data ++ d.original_currency.data ++
  (", Conversion: ").data ++ d.conversion_notes.data

/-- The full `record_text`, newline included. -/
def recordText (ts : String) (d : RecordData) : String :=
  String.mk (recordLineChars ts d ++ ['\n'])

/-- One row of the parsed DataFrame (the dict built per matching line);
`Total` and `OriginalAmount` are the `float(...)` values. -/
structure ParsedRecord where
  timestamp : String
  User : String
  Shop : String
  Total : ℚ
  Currency : String
  Date : String
  Remarks : String
  Shared : String
  OriginalAmount : ℚ
  OriginalCurrency : String
  Conversion : String
  deriving DecidableEq, Repr, Inhabited

/-- Outcome of one line inside the parse loop: no regex match (the line is
skipped), a `ValueError` from `float(...)` (which aborts the whole read),
or a parsed row. -/
inductive LineResult where
  | noMatch
  | badNumber
  | parsed (r : ParsedRecord)
  deriving DecidableEq, Repr

/-- The body of the `for line in content.strip().split('\n')` loop. -/
def decodeChars (l : List Char) : LineResult :=
  match matchLine l with
  | none => .noMatch
  | some g =>
    match pyFloat? (pstripChars g.Total), pyFloat? (pstripChars g.OriginalAmount) with
    | some t, some oa =>
        .parsed
          { timestamp := String.mk g.timestamp
            User := String.mk (pstripChars g.User)
            Shop := String.mk (pstripChars g.Shop)
            Total := t
            Currency := String.mk (pstripChars g.Currency)
            Date := String.mk g.Date
            Remarks := String.mk (pstripChars g.Remarks)
            Shared := String.mk (pstripChars g.Shared)
            OriginalAmount := oa
            OriginalCurrency := String.mk (pstripChars g.OriginalCurrency)
            Conversion := String.mk (pstripChars g.Conversion) }
    | _, _ => .badNumber

/-- Result of the whole read: `error` models the uncaught `ValueError`. -/
inductive PResult where
  | error
  | ok (rs : List ParsedRecord)
  deriving DecidableEq, Repr

/-- The parse loop over the split lines, in order. -/
def parseLines : List (List Char) → PResult
  | [] => .ok []
  | l :: ls =>
    match decodeChars l with
    | .noMatch => parseLines ls
    | .badNumber => .error
    | .parsed r =>
      match parseLines ls with
      | .ok rs => .ok (r :: rs)
      | .error => .error

/-- `read_and_parse_records_to_df` up to the DataFrame post-processing:
`None` content (absent file) and `""` are falsy, hence zero records. -/
def parseLedger (content : Option String) : PResult :=
  match content with
  | none => .ok []
  | some c => if c = "" then .ok [] else parseLines (pySplitLines (pstripChars c.data))

/-- The post-parse user normalisation
`df['User'].apply(lambda x: x if x in ALLOWED_USERS else 'Other')`. -/
def fixUser (r : ParsedRecord) : ParsedRecord :=
  { r with User := if ALLOWED_USERS.contains r.User then r.User else "Other" }

/-- Parse plus the `User` normalisation.  (The subsequent
`sort_values` / `Record_ID` steps only reorder and index rows.) -/
def readAndParseRecords (content : Option String) : PResult :=
  match parseLedger content with
  | .error => .error
  | .ok rs => .ok (rs.map fixUser)

/-! ### Shape checking (used to state which strings the fixed classes match) -/

/-- A string matches a fixed sequence of character classes exactly. -/
def shapeCheck : List (Char → Bool) → List Char → Bool
  | [], [] => true
  | p :: ps, c :: cs => p c && shapeCheck ps cs
  | _, _ => false

/-- Characters that can appear in a `%.2f` rendering. -/
def isAmtC (c : Char) : Bool := isDigitC c || c = '.'

/-! ### Character-class facts -/

theorem isDigitC_char_facts {c : Char} (h : isDigitC c = true) :
    c ≠ ',' ∧ c ≠ '\n' ∧ isUpperC c = false ∧ pyIsSpace c = false := by
  simp only [isDigitC, decide_eq_true_eq] at h
  refine ⟨?_, ?_, ?_, ?_⟩
  · rintro rfl; revert h; decide
  · rintro rfl; revert h; decide
  · simp only [isUpperC, decide_eq_false_iff_not]; omega
  · simp only [pyIsSpace, decide_eq_false_iff_not]
    rintro (rfl | rfl | rfl | rfl | rfl | rfl) <;> revert h <;> decide

theorem isAmtC_char_facts {c : Char} (h : isAmtC c = true) :
    c ≠ ',' ∧ c ≠ '\n' ∧ isUpperC c = false ∧ pyIsSpace c = false := by
  rcases Bool.or_eq_true_iff.mp h with hd | hdot
  · exact isDigitC_char_facts hd
  · have : c = '.' := by simpa using hdot
    subst this; refine ⟨by decide, by decide, by decide, by decide⟩

theorem isUpperC_char_facts {c : Char} (h : isUpperC c = true) :
    pyIsSpace c = false := by
  simp only [isUpperC, decide_eq_true_eq] at h
  simp only [pyIsSpace, decide_eq_false_iff_not]
  rintro (rfl | rfl | rfl | rfl | rfl | rfl) <;> revert h <;> decide

/-! ### Prefix and literal lemmas -/

theorem isPrefixOf_append_self (d s : List Char) : d.isPrefixOf (d ++ s) = true := by
  induction d with
  | nil => simp [List.isPrefixOf]
  | cons c d ih => simp [List.isPrefixOf, ih]

theorem isPrefixOf_head_ne {x y : Char} (d s : List Char) (h : x ≠ y) :
    (x :: d).isPrefixOf (y :: s) = false := by
  simp [List.isPrefixOf, h]

theorem dropLit_append (d s : List Char) : dropLit d (d ++ s) = some s := by
  simp [dropLit, isPrefixOf_append_self, List.drop_left]

theorem dropLit_head_ne {x y : Char} (d s : List Char) (h : x ≠ y) :
    dropLit (x :: d) (y :: s) = none := by
  simp [dropLit, isPrefixOf_head_ne d s h]

/-! ### Combinator evaluation lemmas -/

/-- The lazy star consumes exactly `f` when the continuation succeeds right
after `f` and fails at every position strictly inside `f`. -/
theorem lazyDot_eval {α : Type} (k : List Char → Option α) (f rest : List Char) (a : α)
    (hnl : ∀ c ∈ f, c ≠ '\n')
    (hk : k rest = some a)
    (hff : ∀ t f₂, f = t ++ f₂ → f₂ ≠ [] → k (f₂ ++ rest) = none) :
    lazyDot k (f ++ rest) = some (f, a) := by
  induction f with
  | nil =>
    cases rest with
    | nil => simp [lazyDot, hk]
    | cons c r =>
      have : k (c :: r) = some a := hk
      simp [lazyDot, this]
  | cons c f' ih =>
    have hknone : k ((c :: f') ++ rest) = none := hff [] (c :: f') rfl (by simp)
    have hc : c ≠ '\n' := hnl c (by simp)
    have ih' := ih (fun x hx => hnl x (by simp [hx]))
      (fun t f₂ ht hne => hff (c :: t) f₂ (by simp [ht]) hne)
    simp only [List.cons_append] at hknone
    simp [lazyDot, hknone, hc, ih']

theorem greedyStar_not {α : Type} (p : Char → Bool) (k : List Char → Option α)
    {c : Char} (s : List Char) (h : p c = false) :
    greedyStar p k (c :: s) = k (c :: s) := by
  simp [greedyStar, h]

theorem greedyStar_space {α : Type} (p : Char → Bool) (k : List Char → Option α)
    {c : Char} {s : List Char} {a : α} (hp : p c = true)
    (h : greedyStar p k s = some a) :
    greedyStar p k (c :: s) = some a := by
  simp [greedyStar, hp, h]

theorem takeShape_eval :
    ∀ (ps : List (Char → Bool)) (f rest : List Char), shapeCheck ps f = true →
      takeShape ps (f ++ rest) = some (f, rest) := by
  intro ps
  induction ps with
  | nil =>
    intro f rest h
    cases f with
    | nil => rfl
    | cons c f' => simp [shapeCheck] at h
  | cons p ps ih =>
    intro f rest h
    cases f with
    | nil => simp [shapeCheck] at h
    | cons c f' =>
      simp only [shapeCheck, Bool.and_eq_true] at h
      simp [takeShape, h.1, ih f' rest h.2]

theorem take3Upper_eval {α : Type} (k : List Char → Option α) (x y z : Char)
    (hx : isUpperC x = true) (hy : isUpperC y = true) (hz : isUpperC z = true)
    {rest : List Char} {v : α} (hk : k rest = some v) :
    take3Upper k (x :: y :: z :: rest) = some ([x, y, z], v) := by
  simp [take3Upper, hx, hy, hz, hk]

theorem take3Upper_head_ne {α : Type} (k : List Char → Option α) {x : Char}
    (s : List Char) (h : isUpperC x = false) :
    take3Upper k (x :: s) = none := by
  match s with
  | [] => rfl
  | [_] => rfl
  | _ :: _ :: _ => simp [take3Upper, h]

/-! ### Facts about the decimal rendering -/

theorem natCharsAux_fuel :
    ∀ f g n, n < f → n < g → natCharsAux f n = natCharsAux g n := by
  intro f
  induction f with
  | zero => intro g n hf; omega
  | succ f ih =>
    intro g n hf hg
    cases g with
    | zero => omega
    | succ g =>
      simp only [natCharsAux]
      by_cases h10 : n < 10
      · simp [h10]
      · have hdiv : n / 10 < n := Nat.div_lt_self (by omega) (by omega)
        simp only [h10, if_false]
        rw [ih g (n / 10) (by omega) (by omega)]

/-- The recursion equation of `natChars`. -/
theorem natChars_eq (n : Nat) :
    natChars n =
      if n < 10 then [toDigitChar n]
      else natChars (n / 10) ++ [toDigitChar (n % 10)] := by
  by_cases h10 : n < 10
  · simp [natChars, natCharsAux, h10]
  · have hdiv : n / 10 < n := Nat.div_lt_self (by omega) (by omega)
    have h1 : natCharsAux (n + 1) n = natCharsAux n (n / 10) ++ [toDigitChar (n % 10)] := by
      simp [natCharsAux, h10]
    show natCharsAux (n + 1) n = _
    rw [h1, natCharsAux_fuel n (n / 10 + 1) (n / 10) (by omega) (by omega)]
    simp only [natChars, h10, if_false]

theorem isDigitC_toDigitChar {d : Nat} (h : d < 10) :
    isDigitC (toDigitChar d) = true := by
  interval_cases d <;> decide

theorem toDigitChar_val {d : Nat} (h : d < 10) : (toDigitChar d).toNat - 48 = d := by
  interval_cases d <;> decide

theorem natChars_digits (n : Nat) : ∀ c ∈ natChars n, isDigitC c = true := by
  induction n using Nat.strong_induction_on with
  | _ n ih =>
    rw [natChars_eq]
    by_cases h10 : n < 10
    · simp only [h10, if_true, List.mem_singleton]
      rintro c rfl
      exact isDigitC_toDigitChar h10
    · have hdiv : n / 10 < n := Nat.div_lt_self (by omega) (by omega)
      simp only [h10, if_false, List.mem_append, List.mem_singleton]
      rintro c (hc | rfl)
      · exact ih (n / 10) hdiv c hc
      · exact isDigitC_toDigitChar (Nat.mod_lt n (by omega))

theorem natChars_ne_nil (n : Nat) : natChars n ≠ [] := by
  rw [natChars_eq]
  by_cases h10 : n < 10 <;> simp [h10]

theorem digitsVal_append_singleton (l : List Char) (c : Char) :
    digitsVal (l ++ [c]) = digitsVal l * 10 + (c.toNat - 48) := by
  simp [digitsVal, List.foldl_append]

theorem digitsVal_natChars (n : Nat) : digitsVal (natChars n) = n := by
  induction n using Nat.strong_induction_on with
  | _ n ih =>
    rw [natChars_eq]
    by_cases h10 : n < 10
    · simp only [h10, if_true]
      simp [digitsVal, toDigitChar_val h10]
    · have hdiv : n / 10 < n := Nat.div_lt_self (by omega) (by omega)
      simp only [h10, if_false]
      rw [digitsVal_append_singleton, ih (n / 10) hdiv,
        toDigitChar_val (Nat.mod_lt n (by omega))]
      omega

theorem pad2Chars_digits {m : Nat} (h : m < 100) :
    ∀ c ∈ pad2Chars m, isDigitC c = true := by
  simp only [pad2Chars, List.mem_cons, List.mem_singleton]
  rintro c (rfl | rfl | hc)
  · exact isDigitC_toDigitChar (by omega)
  · exact isDigitC_toDigitChar (Nat.mod_lt m (by omega))
  · simp at hc

theorem digitsVal_pad2Chars {m : Nat} (h : m < 100) : digitsVal (pad2Chars m) = m := by
  simp [pad2Chars, digitsVal, toDigitChar_val (show m / 10 < 10 by omega),
    toDigitChar_val (Nat.mod_lt m (by omega))]
  omega

theorem fmtCentsChars_amt (n : Nat) : ∀ c ∈ fmtCentsChars n, isAmtC c = true := by
  simp only [fmtCentsChars, List.mem_append, List.mem_cons]
  rintro c (hc | rfl | hc)
  · simp [isAmtC, natChars_digits _ c hc]
  · simp [isAmtC]
  · simp [isAmtC, pad2Chars_digits (Nat.mod_lt n (by omega)) c hc]

/-- `takeWhile` stops exactly at the first failing character. -/
theorem takeWhile_full_append (p : Char → Bool) (l : List Char) (x : Char)
    (t : List Char) (hl : ∀ c ∈ l, p c = true) (hx : p x = false) :
    (l ++ x :: t).takeWhile p = l := by
  induction l with
  | nil => simp [List.takeWhile, hx]
  | cons c l ih =>
    have hc : p c = true := hl c (by simp)
    simp only [List.cons_append, List.takeWhile_cons, hc, if_true]
    rw [ih (fun d hd => hl d (by simp [hd]))]

/-- Parsing the `%.2f` rendering of `n` cents with `float()` gives back
exactly `n / 100`. -/
theorem pyFloat?_fmtCents (n : Nat) :
    pyFloat? (fmtCentsChars n) = some (mkRat n 100) := by
  have hmod : n % 100 < 100 := Nat.mod_lt n (by omega)
  have htw : (fmtCentsChars n).takeWhile isDigitC = natChars (n / 100) := by
    rw [fmtCentsChars]
    exact takeWhile_full_append _ _ _ _ (natChars_digits (n / 100)) (by decide)
  have hdrop :
      (fmtCentsChars n).drop (natChars (n / 100)).length = '.' :: pad2Chars (n % 100) := by
    rw [fmtCentsChars, List.drop_left]
  simp only [pyFloat?, htw, hdrop]
  have hall : (pad2Chars (n % 100)).all isDigitC = true := by
    rw [List.all_eq_true]
    exact pad2Chars_digits hmod
  have hne : pad2Chars (n % 100) ≠ [] := by simp [pad2Chars]
  simp only [hall, hne, digitsVal_natChars, digitsVal_pad2Chars hmod, ne_eq,
    not_false_iff, or_true, and_true, if_true]
  have hlen : (pad2Chars (n % 100)).length = 2 := by simp [pad2Chars]
  rw [hlen]
  have harith : (↑(n / 100) * 10 ^ 2 + ↑(n % 100) : ℤ) = (n : ℤ) := by
    norm_num
    omega
  rw [harith]
  have hden : (10 : ℕ) ^ 2 = 100 := by norm_num
  rw [hden]

/-! ### `str.strip` lemmas -/

theorem dropWhile_all_false (p : Char → Bool) (l : List Char)
    (h : ∀ c ∈ l, p c = false) : l.dropWhile p = l := by
  cases l with
  | nil => rfl
  | cons c t => simp [List.dropWhile_cons, h c (by simp)]

theorem pstrip_no_space (l : List Char) (h : ∀ c ∈ l, pyIsSpace c = false) :
    pstripChars l = l := by
  unfold pstripChars
  rw [dropWhile_all_false _ _ h,
    dropWhile_all_false _ _ (fun c hc => h c (List.mem_reverse.mp hc)),
    List.reverse_reverse]

/-! ### Continuation helpers for the stage proofs -/

theorem kLit_bind {α : Type} (lit s : List Char) (g : List Char → Option α) {v : α}
    (hres : g s = some v) :
    (dropLit lit (lit ++ s)).bind g = some v := by
  rw [dropLit_append]
  exact hres

theorem kCommaLit_none {α : Type} (lit tl : List Char) (hlit : lit = ',' :: tl)
    (g : List Char → Option α) (first : Char) (rest2 : List Char)
    (hne : first ≠ ',') :
    (dropLit lit (first :: rest2)).bind g = none := by
  subst hlit
  rw [dropLit_head_ne tl rest2 (Ne.symm hne)]
  rfl

theorem greedyStar_lit_bind {α : Type} (lit : List Char) (g : List Char → Option α)
    (s : List Char) (x : Char) (t : List Char) (hlit : lit = x :: t)
    (hx : pyIsSpace x = false) :
    greedyStar pyIsSpace (fun u => (dropLit lit u).bind g) (lit ++ s) = g s := by
  subst hlit
  simp only [List.cons_append]
  rw [greedyStar_not _ _ _ hx]
  show (dropLit (x :: t) ((x :: t) ++ s)).bind g = g s
  rw [dropLit_append]
  rfl

/-- The continuation `,\s*<lit>` applied at the encoder's `", <lit>"`. -/
theorem kCommaWsLit {α : Type} (lit : List Char) (g : List Char → Option α)
    (s : List Char) (x : Char) (t : List Char) (hlit : lit = x :: t)
    (hx : pyIsSpace x = false) {v : α} (hres : g s = some v) :
    (dropLit ((",").data) (',' :: ' ' :: (lit ++ s))).bind
      (greedyStar pyIsSpace (fun u => (dropLit lit u).bind g)) = some v := by
  rw [show (",").data = [','] from by decide]
  rw [show (',' :: ' ' :: (lit ++ s)) = [','] ++ (' ' :: (lit ++ s)) from rfl, dropLit_append]
  show greedyStar pyIsSpace (fun u => (dropLit lit u).bind g) (' ' :: (lit ++ s)) = some v
  apply greedyStar_space _ _ (show pyIsSpace ' ' = true from by decide)
  rw [greedyStar_lit_bind lit g s x t hlit hx, hres]

/-- Inside a `%.2f` amount, the `\s*[A-Z]{3}` continuation always fails. -/
theorem kGreedyCur_none (first : Char) (rest2 : List Char)
    (hsp : pyIsSpace first = false) (hup : isUpperC first = false) :
    greedyStar pyIsSpace mCur (first :: rest2) = none := by
  rw [greedyStar_not _ _ _ hsp]
  unfold mCur
  exact take3Upper_head_ne _ rest2 hup

/-! ### Evaluation of the matcher on encoder output, stage by stage -/

theorem mConv_eval (cv : List Char) (h : ∀ x ∈ cv, x ≠ '\n') : mConv cv = some cv := by
  have heval := lazyDot_eval (fun t => if t = ([] : List Char) then some () else none)
    cv [] () h (by simp)
    (fun t f₂ ht hne => by simp [List.append_nil, hne])
  rw [List.append_nil] at heval
  simp [mConv, heval]

theorem mOrigCur_eval (oc1 oc2 oc3 : Char) (h1 : isUpperC oc1 = true)
    (h2 : isUpperC oc2 = true) (h3 : isUpperC oc3 = true)
    (cv : List Char) (hcv : ∀ x ∈ cv, x ≠ '\n') :
    mOrigCur (oc1 :: oc2 :: oc3 :: ((", Conversion: ").data ++ cv)) =
      some ([oc1, oc2, oc3], cv) := by
  unfold mOrigCur
  refine take3Upper_eval _ oc1 oc2 oc3 h1 h2 h3 ?_
  show (dropLit ((", ").data) ((", Conversion: ").data ++ cv)).bind
    (greedyStar pyIsSpace (fun u => (dropLit (("Conversion: ").data) u).bind mConv)) = some cv
  rw [show (", Conversion: ").data = (", ").data ++ ("Conversion: ").data from by decide,
    List.append_assoc, dropLit_append]
  show greedyStar pyIsSpace (fun u => (dropLit (("Conversion: ").data) u).bind mConv)
    (("Conversion: ").data ++ cv) = some cv
  rw [greedyStar_lit_bind _ _ _ 'C' (("onversion: ").data) (by decide) (by decide),
    mConv_eval cv hcv]

/-- A lazy capture whose continuation is a single comma-initial literal,
fed a comma-free field followed by exactly that literal. -/
theorem lazyLit_eval {α : Type} (lit tl0 : List Char) (hlit : lit = ',' :: tl0)
    (g : List Char → Option α) (f : List Char)
    (hf : ∀ c ∈ f, c ≠ ',' ∧ c ≠ '\n') (rest : List Char) {v : α}
    (hrest : g rest = some v) :
    lazyDot (fun u => (dropLit lit u).bind g) (f ++ (lit ++ rest)) = some (f, v) := by
  refine lazyDot_eval _ f (lit ++ rest) v (fun c hc => (hf c hc).2) ?_ ?_
  · exact kLit_bind lit rest g hrest
  · intro t f₂ ht hne
    cases f₂ with
    | nil => exact absurd rfl hne
    | cons first f₂ =>
      have hfirst : first ∈ f := by
        rw [ht]; exact List.mem_append_right t (List.mem_cons_self first f₂)
      show (dropLit lit ((first :: f₂) ++ (lit ++ rest))).bind g = none
      rw [List.cons_append]
      exact kCommaLit_none lit tl0 hlit g first _ (hf first hfirst).1

/-- A lazy capture whose continuation is `,\s*<lit>`, fed a comma-free
field followed by the encoder's `", <lit>"`. -/
theorem lazyCommaWsLit_eval {α : Type} (lit : List Char) (x : Char) (t0 : List Char)
    (hlit : lit = x :: t0) (hx : pyIsSpace x = false) (big : List Char)
    (hbig : big = ',' :: ' ' :: lit) (g : List Char → Option α) (f : List Char)
    (hf : ∀ c ∈ f, c ≠ ',' ∧ c ≠ '\n') (rest : List Char) {v : α}
    (hrest : g rest = some v) :
    lazyDot (fun u => (dropLit ((",").data) u).bind
        (greedyStar pyIsSpace (fun u2 => (dropLit lit u2).bind g)))
      (f ++ (big ++ rest)) = some (f, v) := by
  subst hbig
  refine lazyDot_eval _ f ((',' :: ' ' :: lit) ++ rest) v (fun c hc => (hf c hc).2) ?_ ?_
  · show (dropLit ((",").data) ((',' :: ' ' :: lit) ++ rest)).bind
      (greedyStar pyIsSpace (fun u2 => (dropLit lit u2).bind g)) = some v
    have hshape : (',' :: ' ' :: lit) ++ rest = ',' :: ' ' :: (lit ++ rest) := by
      simp
    rw [hshape]
    exact kCommaWsLit lit g rest x t0 hlit hx hrest
  · intro t f₂ ht hne
    cases f₂ with
    | nil => exact absurd rfl hne
    | cons first f₂ =>
      have hfirst : first ∈ f := by
        rw [ht]; exact List.mem_append_right t (List.mem_cons_self first f₂)
      show (dropLit ((",").data) ((first :: f₂) ++ ((',' :: ' ' :: lit) ++ rest))).bind
        (greedyStar pyIsSpace (fun u2 => (dropLit lit u2).bind g)) = none
      rw [List.cons_append]
      exact kCommaLit_none ((",").data) [] (by decide) _ first _ (hf first hfirst).1

theorem mOrigAmt_eval (oa : List Char) (hoa : ∀ x ∈ oa, isAmtC x = true)
    (rest : List Char) (tl : List Char × List Char)
    (hrest : mOrigCur rest = some tl) :
    mOrigAmt (oa ++ ((", OriginalCurrency: ").data ++ rest)) = some (oa, tl) := by
  unfold mOrigAmt
  exact lazyCommaWsLit_eval (("OriginalCurrency: ").data) 'O' (("riginalCurrency: ").data)
    (by decide) (by decide) ((", OriginalCurrency: ").data) (by decide) mOrigCur oa
    (fun c hc =>
      ⟨(isAmtC_char_facts (hoa c hc)).1, (isAmtC_char_facts (hoa c hc)).2.1⟩)
    rest hrest

theorem mShared_eval (sh : List Char) (hsh : ∀ c ∈ sh, c ≠ ',' ∧ c ≠ '\n')
    (rest : List Char) (tl : List Char × List Char × List Char)
    (hrest : mOrigAmt rest = some tl) :
    mShared (sh ++ ((", OriginalAmount: ").data ++ rest)) = some (sh, tl) := by
  unfold mShared
  exact lazyCommaWsLit_eval (("OriginalAmount: ").data) 'O' (("riginalAmount: ").data)
    (by decide) (by decide) ((", OriginalAmount: ").data) (by decide) mOrigAmt sh hsh
    rest hrest

theorem mRemarks_eval (r : List Char) (hr : ∀ c ∈ r, c ≠ ',' ∧ c ≠ '\n')
    (rest : List Char) (tl : List Char × List Char × List Char × List Char)
    (hrest : mShared rest = some tl) :
    mRemarks (r ++ ((", Shared: ").data ++ rest)) = some (r, tl) := by
  unfold mRemarks
  exact lazyLit_eval ((", Shared: ").data) ((" Shared: ").data) (by decide) mShared r hr
    rest hrest

theorem mDate_eval (d : List Char) (hd : shapeCheck dateShape d = true)
    (rest : List Char) (tl : List Char × List Char × List Char × List Char × List Char)
    (hrest : mRemarks rest = some tl) :
    mDate (d ++ ((", Remarks: ").data ++ rest)) = some (d, tl) := by
  unfold mDate
  simp only [takeShape_eval dateShape d ((", Remarks: ").data ++ rest) hd,
    kLit_bind ((", Remarks: ").data) rest mRemarks hrest]

theorem mCur_eval (c1 c2 c3 : Char) (h1 : isUpperC c1 = true)
    (h2 : isUpperC c2 = true) (h3 : isUpperC c3 = true)
    (rest : List Char)
    (tl : List Char × List Char × List Char × List Char × List Char × List Char)
    (hrest : mDate rest = some tl) :
    mCur (c1 :: c2 :: c3 :: ((", Date: ").data ++ rest)) = some ([c1, c2, c3], tl) := by
  unfold mCur
  refine take3Upper_eval _ c1 c2 c3 h1 h2 h3 ?_
  exact kLit_bind ((", Date: ").data) rest mDate hrest

theorem mTotal_eval (tt : List Char) (htt : ∀ x ∈ tt, isAmtC x = true)
    (c1 c2 c3 : Char) (h1 : isUpperC c1 = true) (h2 : isUpperC c2 = true)
    (h3 : isUpperC c3 = true) (rest : List Char)
    (tl : List Char × List Char × List Char × List Char × List Char × List Char)
    (hrest : mDate rest = some tl) :
    mTotal (tt ++ (' ' :: c1 :: c2 :: c3 :: ((", Date: ").data ++ rest))) =
      some (tt, [c1, c2, c3], tl) := by
  unfold mTotal
  refine lazyDot_eval _ tt _ ([c1, c2, c3], tl)
    (fun x hx => (isAmtC_char_facts (htt x hx)).2.1) ?_ ?_
  · show greedyStar pyIsSpace mCur (' ' :: c1 :: c2 :: c3 :: ((", Date: ").data ++ rest)) =
      some ([c1, c2, c3], tl)
    apply greedyStar_space _ _ (show pyIsSpace ' ' = true from by decide)
    rw [greedyStar_not _ _ _ (isUpperC_char_facts h1)]
    exact mCur_eval c1 c2 c3 h1 h2 h3 rest tl hrest
  · intro t f₂ ht hne
    cases f₂ with
    | nil => exact absurd rfl hne
    | cons first f₂ =>
      have hfirst : first ∈ tt := by
        rw [ht]; exact List.mem_append_right t (List.mem_cons_self first f₂)
      show greedyStar pyIsSpace mCur
        ((first :: f₂) ++ (' ' :: c1 :: c2 :: c3 :: ((", Date: ").data ++ rest))) = none
      rw [List.cons_append]
      exact kGreedyCur_none first _ (isAmtC_char_facts (htt first hfirst)).2.2.2
        (isAmtC_char_facts (htt first hfirst)).2.2.1

theorem mShop_eval (s : List Char) (hs : ∀ c ∈ s, c ≠ ',' ∧ c ≠ '\n')
    (rest : List Char)
    (tl : List Char × List Char × List Char × List Char × List Char × List Char ×
      List Char × List Char)
    (hrest : mTotal rest = some tl) :
    mShop (s ++ ((", Total: ").data ++ rest)) = some (s, tl) := by
  unfold mShop
  exact lazyLit_eval ((", Total: ").data) ((" Total: ").data) (by decide) mTotal s hs
    rest hrest

theorem mUser_eval (u : List Char) (hu : ∀ c ∈ u, c ≠ ',' ∧ c ≠ '\n')
    (rest : List Char)
    (tl : List Char × List Char × List Char × List Char × List Char × List Char ×
      List Char × List Char × List Char)
    (hrest : mShop rest = some tl) :
    mUser (u ++ ((", Shop: ").data ++ rest)) = some (u, tl) := by
  unfold mUser
  exact lazyLit_eval ((", Shop: ").data) ((" Shop: ").data) (by decide) mShop u hu
    rest hrest

theorem matchLine_eval (ts : List Char) (hts : shapeCheck tsShape ts = true)
    (rest : List Char)
    (u s tt cur d r sh oa oc cv : List Char)
    (hrest : mUser rest = some (u, s, tt, cur, d, r, sh, oa, oc, cv)) :
    matchLine ('[' :: (ts ++ (("] User: ").data ++ rest))) =
      some ⟨ts, u, s, tt, cur, d, r, sh, oa, oc, cv⟩ := by
  unfold matchLine
  have h0 : dropLit (("[").data) ('[' :: (ts ++ (("] User: ").data ++ rest))) =
      some (ts ++ (("] User: ").data ++ rest)) := by
    rw [show ("[").data = ['['] from by decide]
    rw [show ('[' :: (ts ++ (("] User: ").data ++ rest))) =
      ['['] ++ (ts ++ (("] User: ").data ++ rest)) from rfl]
    exact dropLit_append _ _
  simp only [h0, takeShape_eval tsShape ts ((("] User: ").data) ++ rest) hts,
    dropLit_append, hrest]

/-! ### Round-trip: validity, parsed image, and the composite theorems -/

theorem mk_data (s : String) : String.mk s.data = s := rfl

theorem length3_eq {l : List Char} (h : l.length = 3) : ∃ a b c, l = [a, b, c] := by
  cases l with
  | nil => simp at h
  | cons a l =>
    cases l with
    | nil => simp at h
    | cons b l =>
      cases l with
      | nil => simp at h
      | cons c l =>
        cases l with
        | nil => exact ⟨a, b, c, rfl⟩
        | cons d l => simp at h

/-- A record every one of whose fields is representable in the line grammar:
timestamp and date have their fixed digit shapes, free-text fields contain
no comma and no newline and carry no surrounding whitespace (the decoder
`strip`s each captured group), currency codes are 3 uppercase ASCII letters,
and the conversion note (the last field, where the pattern tolerates commas)
contains no newline. -/
def ValidRecord (r : ExpenseRecord) : Prop :=
  shapeCheck tsShape r.timestamp.data = true ∧
  shapeCheck dateShape r.transaction_date.data = true ∧
  (∀ c ∈ r.user_name.data, c ≠ ',' ∧ c ≠ '\n') ∧
  pstripChars r.user_name.data = r.user_name.data ∧
  (∀ c ∈ r.shop_name.data, c ≠ ',' ∧ c ≠ '\n') ∧
  pstripChars r.shop_name.data = r.shop_name.data ∧
  (∀ c ∈ r.remarks.data, c ≠ ',' ∧ c ≠ '\n') ∧
  pstripChars r.remarks.data = r.remarks.data ∧
  (∀ c ∈ r.is_shared.data, c ≠ ',' ∧ c ≠ '\n') ∧
  pstripChars r.is_shared.data = r.is_shared.data ∧
  r.currency.data.length = 3 ∧ (∀ c ∈ r.currency.data, isUpperC c = true) ∧
  r.original_currency.data.length = 3 ∧
  (∀ c ∈ r.original_currency.data, isUpperC c = true) ∧
  (∀ c ∈ r.conversion_notes.data, c ≠ '\n') ∧
  pstripChars r.conversion_notes.data = r.conversion_notes.data

instance (r : ExpenseRecord) : Decidable (ValidRecord r) := by
  unfold ValidRecord
  infer_instance

/-- The row the decoder produces for an encoded record. -/
def toParsed (r : ExpenseRecord) : ParsedRecord :=
  { timestamp := r.timestamp
    User := r.user_name
    Shop := r.shop_name
    Total := mkRat r.total_amount 100
    Currency := r.currency
    Date := r.transaction_date
    Remarks := r.remarks
    Shared := r.is_shared
    OriginalAmount := mkRat r.original_amount 100
    OriginalCurrency := r.original_currency
    Conversion := r.conversion_notes }

theorem matchLine_recordLine (r : ExpenseRecord) (h : ValidRecord r) :
    matchLine (recordLineChars r.timestamp r.toRecordData) =
      some ⟨r.timestamp.data, r.user_name.data, r.shop_name.data,
        fmtCentsChars r.total_amount, r.currency.data, r.transaction_date.data,
        r.remarks.data, r.is_shared.data, fmtCentsChars r.original_amount,
        r.original_currency.data, r.conversion_notes.data⟩ := by
  obtain ⟨hts, hdate, hu, -, hs, -, hr, -, hsh, -, hclen, hcup, holen, houp, hcv, -⟩ := h
  obtain ⟨c1, c2, c3, hcur⟩ := length3_eq hclen
  obtain ⟨o1, o2, o3, hocur⟩ := length3_eq holen
  have hc1 : isUpperC c1 = true := hcup c1 (by rw [hcur]; simp)
  have hc2 : isUpperC c2 = true := hcup c2 (by rw [hcur]; simp)
  have hc3 : isUpperC c3 = true := hcup c3 (by rw [hcur]; simp)
  have ho1 : isUpperC o1 = true := houp o1 (by rw [hocur]; simp)
  have ho2 : isUpperC o2 = true := houp o2 (by rw [hocur]; simp)
  have ho3 : isUpperC o3 = true := houp o3 (by rw [hocur]; simp)
  have hOC := mOrigCur_eval o1 o2 o3 ho1 ho2 ho3 r.conversion_notes.data
    (fun c hc => hcv c hc)
  have hOA := mOrigAmt_eval (fmtCentsChars r.original_amount)
    (fmtCentsChars_amt r.original_amount) _ _ hOC
  have hSH := mShared_eval r.is_shared.data hsh _ _ hOA
  have hR := mRemarks_eval r.remarks.data hr _ _ hSH
  have hD := mDate_eval r.transaction_date.data hdate _ _ hR
  have hT := mTotal_eval (fmtCentsChars r.total_amount)
    (fmtCentsChars_amt r.total_amount) c1 c2 c3 hc1 hc2 hc3 _ _ hD
  have hS := mShop_eval r.shop_name.data hs _ _ hT
  have hU := mUser_eval r.user_name.data hu _ _ hS
  have hM := matchLine_eval r.timestamp.data hts _
    r.user_name.data r.shop_name.data (fmtCentsChars r.total_amount) [c1, c2, c3]
    r.transaction_date.data r.remarks.data r.is_shared.data
    (fmtCentsChars r.original_amount) [o1, o2, o3] r.conversion_notes.data hU
  have hinput : recordLineChars r.timestamp r.toRecordData =
      '[' :: (r.timestamp.data ++ (("] User: ").data ++
        (r.user_name.data ++ ((", Shop: ").data ++
        (r.shop_name.data ++ ((", Total: ").data ++
        (fmtCentsChars r.total_amount ++ (' ' :: c1 :: c2 :: c3 :: ((", Date: ").data ++
        (r.transaction_date.data ++ ((", Remarks: ").data ++
        (r.remarks.data ++ ((", Shared: ").data ++
        (r.is_shared.data ++ ((", OriginalAmount: ").data ++
        (fmtCentsChars r.original_amount ++ ((", OriginalCurrency: ").data ++
        (o1 :: o2 :: o3 :: ((", Conversion: ").data ++
          r.conversion_notes.data))))))))))))))))))) := by
    rw [recordLineChars]
    rw [show ("[").data = ['['] from by decide, show (" ").data = [' '] from by decide]
    rw [hcur, hocur]
    simp [List.append_assoc]
  rw [hinput, hM, hcur, hocur]

theorem decodeChars_recordLine (r : ExpenseRecord) (h : ValidRecord r) :
    decodeChars (recordLineChars r.timestamp r.toRecordData) = .parsed (toParsed r) := by
  have hM := matchLine_recordLine r h
  obtain ⟨-, -, -, hu, -, hs, -, hr, -, hsh, -, hcup, -, houp, -, hcv⟩ := h
  have hstrT : pstripChars (fmtCentsChars r.total_amount) = fmtCentsChars r.total_amount :=
    pstrip_no_space _ (fun c hc => (isAmtC_char_facts (fmtCentsChars_amt _ c hc)).2.2.2)
  have hstrO : pstripChars (fmtCentsChars r.original_amount) =
      fmtCentsChars r.original_amount :=
    pstrip_no_space _ (fun c hc => (isAmtC_char_facts (fmtCentsChars_amt _ c hc)).2.2.2)
  have hstrC : pstripChars r.currency.data = r.currency.data :=
    pstrip_no_space _ (fun c hc => isUpperC_char_facts (hcup c hc))
  have hstrOC : pstripChars r.original_currency.data = r.original_currency.data :=
    pstrip_no_space _ (fun c hc => isUpperC_char_facts (houp c hc))
  simp only [decodeChars, hM, hstrT, hstrO, hstrC, hstrOC,
    hu, hs, hr, hsh, hcv, pyFloat?_fmtCents, mk_data, toParsed]

/-- Amounts are rendered with an integer part, a dot, and exactly two
decimal digits. -/
def twoDecimalRendering (n : Nat) : Prop :=
  ∃ w x y, fmtCentsChars n = w ++ ('.' :: [x, y]) ∧ w ≠ [] ∧
    (∀ c ∈ w, isDigitC c = true) ∧ isDigitC x = true ∧ isDigitC y = true

theorem twoDecimalRendering_all (n : Nat) : twoDecimalRendering n :=
  ⟨natChars (n / 100), toDigitChar (n % 100 / 10), toDigitChar (n % 100 % 10),
    rfl, natChars_ne_nil _, natChars_digits _,
    isDigitC_toDigitChar (by omega), isDigitC_toDigitChar (by omega)⟩

/-- Skipping is benign: as long as no line makes `float()` raise, the parse
loop returns exactly the rows of the matching lines, in order. -/
theorem parseLines_no_bad (ls : List (List Char))
    (h : ∀ l ∈ ls, decodeChars l ≠ .badNumber) :
    parseLines ls = .ok (ls.filterMap fun l =>
      match decodeChars l with
      | .parsed r => some r
      | _ => none) := by
  induction ls with
  | nil => rfl
  | cons l ls ih =>
    have hl := h l (by simp)
    have ih' := ih (fun m hm => h m (by simp [hm]))
    cases hdec : decodeChars l with
    | noMatch => simp [parseLines, hdec, List.filterMap_cons, ih']
    | badNumber => exact absurd hdec hl
    | parsed r => simp [parseLines, hdec, List.filterMap_cons, ih']

/-! ### `write_to_github_file`: append, creating the file when absent

`read_full_content` returns `(None, None)` when the blob is missing (or any
read error); the writer then uses `(full_content or "") + record_text` and
`create_file` instead of `update_file`. -/

/-- The GitHub write performed by `write_to_github_file`. -/
inductive WriteOp where
  | createFile (content : String)
  | updateFile (content : String) (sha : String)
  deriving DecidableEq, Repr

/-- `write_to_github_file`, given the current blob `(content, sha)` (or
`none` for an absent file), the timestamp `datetime.now()` stamps, and the
record dict. -/
def write_to_github_file (blob : Option (String × String)) (now : String)
    (d : RecordData) : WriteOp :=
  match blob with
  | some (full, sha) => .updateFile (full ++ recordText now d) sha
  | none => .createFile ("" ++ recordText now d)

/-! ### `execute_github_action`: delete / update by full rewrite -/

inductive GAction where
  | delete
  | update
  deriving DecidableEq, Repr

/-- Outcome of `execute_github_action`: read failure, the cached-row check
failing, or a successful rewrite with the new full text.  (There is no
other failure constructor: the function has no not-found path for the
line scan itself.) -/
inductive ActionResult where
  | readFailure
  | targetMissing
  | success (newContent : String)
  deriving DecidableEq, Repr

/-- `target_line_start = f"[{timestamp}] User: {user}"`. -/
def targetStartOf (row : ParsedRecord) : List Char :=
  ("[").data ++ row.timestamp.data ++ ("] User: ").data ++ row.User.data

/-- The body of the rewrite loop for one line. -/
def applyLine (targetStart : List Char) (action : GAction)
    (newData : Option RecordData) (now : String) (line : List Char) :
    List (List Char) :=
  if targetStart.isPrefixOf line then
    match action, newData with
    | .delete, _ => []
    | .update, some d => [pstripChars (recordLineChars now d ++ ['\n'])]
    | .update, none => [line]
  else [line]

/-- `execute_github_action`.  `dfRecords` is the cached session DataFrame
(`Record_ID` is the list index), `blob` the current remote `(content, sha)`,
`now` the edit-time timestamp used for a rewritten line. -/
def execute_github_action (dfRecords : List ParsedRecord) (recordId : Nat)
    (blob : Option (String × String)) (action : GAction)
    (newData : Option RecordData) (now : String) : ActionResult :=
  match blob with
  | none => .readFailure
  | some (full, _sha) =>
    if recordId < dfRecords.length then
      let row := dfRecords.getD recordId default
      let targetStart := targetStartOf row
      let originalLines := pySplitLines (pstripChars full.data)
      let newLines := (originalLines.map (applyLine targetStart action newData now)).flatten
      .success (String.mk (List.intercalate ['\n'] newLines ++ ['\n']))
    else .targetMissing

/-! ### `convert_currency` and the submission path -/

/-- The information content of the three `conversion_info` strings built at
lines 529–541 of the source (the Python strings render these fields). -/
inductive ConvNote where
  | converted (orig : ℚ) (origCur : String) (amt : ℚ) (rate : ℚ)
  | failedKeepOriginal (orig : ℚ) (origCur : String)
  | noConversionNeeded (orig : ℚ) (origCur : String)
  deriving DecidableEq, Repr

/-- Python `str.upper()` on ASCII. -/
def pyUpperChar (c : Char) : Char :=
  if 97 ≤ c.toNat ∧ c.toNat ≤ 122 then Char.ofNat (c.toNat - 32) else c

def strUpper (s : String) : String := String.mk (s.data.map pyUpperChar)

/-- `convert_currency(amount, from_currency)`: `hasKey` is whether
`EXCHANGE_RATE_API_KEY` is set, `api` the exchange-rate call's outcome
(`some rate` for a `"success"` response, `none` for any request failure or
non-success response).  Returns `(amount, currency, rate)` exactly as the
source's three `return`s do. -/
def convert_currency (amount : ℚ) (from_currency : String) (hasKey : Bool)
    (api : Option ℚ) : ℚ × String × ℚ :=
  if !hasKey then (amount, from_currency, 0)
  else if from_currency = BASE_CURRENCY then (amount, BASE_CURRENCY, 1)
  else
    match api with
    | some rate => (amount * rate, BASE_CURRENCY, rate)
    | none => (amount, from_currency, 0)

/-- The OCR / manual-entry payload (`ocr_data`). -/
structure OcrData where
  shop_name : String
  total_amount : ℚ
  currency : String
  transaction_date : String
  deriving Repr

/-- The `final_record` dict assembled by `render_submission_page`. -/
structure FinalRecord where
  user_name : String
  remarks : String
  is_shared : String
  original_currency : String
  original_amount : ℚ
  shop_name : String
  total_amount : ℚ
  currency : String
  transaction_date : String
  conversion_notes : ConvNote
  deriving Repr

/-- Lines 517–556 of the source: the conversion branch and the
`final_record` construction of `render_submission_page`. -/
def buildFinalRecord (user_name remarks : String) (is_shared : Bool)
    (ocr : OcrData) (hasKey : Bool) (api : Option ℚ) : FinalRecord :=
  let original_currency := strUpper ocr.currency
  let original_amount := ocr.total_amount
  let base :=
    { user_name := user_name
      remarks := remarks
      is_shared := if is_shared then "Yes" else "No"
      original_currency := original_currency
      original_amount := original_amount
      shop_name := ocr.shop_name
      total_amount := original_amount
      currency := original_currency
      transaction_date := ocr.transaction_date
      conversion_notes := ConvNote.noConversionNeeded original_amount original_currency :
      FinalRecord }
  if TARGET_CURRENCIES.contains original_currency then
    let res := convert_currency original_amount original_currency hasKey api
    if 0 < res.2.2 then
      { base with
        total_amount := res.1
        currency := BASE_CURRENCY
        conversion_notes := ConvNote.converted original_amount original_currency res.1 res.2.2 }
    else
      { base with
        total_amount := original_amount
        currency := original_currency
        conversion_notes := ConvNote.failedKeepOriginal original_amount original_currency }
  else
    { base with
      total_amount := original_amount
      currency := BASE_CURRENCY
      conversion_notes := ConvNote.noConversionNeeded original_amount original_currency }

/-! ### `calculate_and_display_summary` -/

/-- `df['Total_HKD_Value'].sum()`. -/
def totalExpense (df : List ParsedRecord) : ℚ :=
  (df.map (·.Total)).sum

/-- The per-user total the summary displays for `u` (the groupby sum, or
`0.0` when the user has no rows). -/
def userTotal (df : List ParsedRecord) (u : String) : ℚ :=
  ((df.filter (fun r => r.User == u)).map (·.Total)).sum

/-- The figures `calculate_and_display_summary` displays: the overall total
and one metric per allowed user. -/
def calculate_and_display_summary (df : List ParsedRecord) :
    ℚ × List (String × ℚ) :=
  (totalExpense df, ALLOWED_USERS.map fun u => (u, userTotal df u))

/-- Settlement balance as §4.3 of the spec words it, for the equal-split
policy: `paid_A − should_pay_A` over the shared records `(payer, amount)`;
positive means B owes A.  This definition follows the spec's words (the
claim asserts the program computes it); it is *not* a translation of any
source function. -/
def specSettlementBalance (shared : List (String × ℚ)) (partyA : String) : ℚ :=
  ((shared.filter (fun p => p.1 == partyA)).map Prod.snd).sum -
    ((shared.map (fun p => p.2 / 2)).sum)

/-! ### Rewrite-loop lemmas -/

theorem flatten_map_singleton (ls : List (List Char)) :
    (ls.map (fun l => [l])).flatten = ls := by
  induction ls with
  | nil => rfl
  | cons l ls ih => simp [ih]

theorem applyLine_no_match (ts : List Char) (a : GAction) (nd : Option RecordData)
    (now : String) (l : List Char) (h : ts.isPrefixOf l = false) :
    applyLine ts a nd now l = [l] := by
  simp [applyLine, h]

theorem map_applyLine_no_match (ts : List Char) (a : GAction) (nd : Option RecordData)
    (now : String) (ls : List (List Char))
    (h : ∀ l ∈ ls, ts.isPrefixOf l = false) :
    (ls.map (applyLine ts a nd now)).flatten = ls := by
  rw [List.map_congr_left (fun l hl => applyLine_no_match ts a nd now l (h l hl))]
  exact flatten_map_singleton ls

/-- When the target prefix matches no line at all, `execute_github_action`
still reports success and rewrites the file with exactly the original
lines. -/
theorem execute_no_match (df : List ParsedRecord) (recordId : Nat)
    (full sha : String) (action : GAction) (newData : Option RecordData)
    (now : String) (hid : recordId < df.length)
    (hnm : ∀ l ∈ pySplitLines (pstripChars full.data),
      (targetStartOf (df.getD recordId default)).isPrefixOf l = false) :
    execute_github_action df recordId (some (full, sha)) action newData now =
      .success (String.mk (List.intercalate ['\n']
        (pySplitLines (pstripChars full.data)) ++ ['\n'])) := by
  simp only [execute_github_action, hid, if_true]
  rw [map_applyLine_no_match _ _ _ _ _ hnm]

/-- With exactly one matching line, delete removes it and keeps every other
line verbatim, in order. -/
theorem execute_delete_unique (df : List ParsedRecord) (recordId : Nat)
    (full sha : String) (now : String) (hid : recordId < df.length)
    (pre post : List (List Char)) (l : List Char)
    (hsplit : pySplitLines (pstripChars full.data) = pre ++ l :: post)
    (hl : (targetStartOf (df.getD recordId default)).isPrefixOf l = true)
    (hothers : ∀ m ∈ pre ++ post,
      (targetStartOf (df.getD recordId default)).isPrefixOf m = false) :
    execute_github_action df recordId (some (full, sha)) .delete none now =
      .success (String.mk (List.intercalate ['\n'] (pre ++ post) ++ ['\n'])) := by
  have hpre : (pre.map (applyLine (targetStartOf (df.getD recordId default))
      .delete none now)).flatten = pre :=
    map_applyLine_no_match _ _ _ _ _ (fun m hm => hothers m (List.mem_append_left _ hm))
  have hpost : (post.map (applyLine (targetStartOf (df.getD recordId default))
      .delete none now)).flatten = post :=
    map_applyLine_no_match _ _ _ _ _ (fun m hm => hothers m (List.mem_append_right _ hm))
  have hmid : applyLine (targetStartOf (df.getD recordId default)) .delete none now l
      = [] := by
    unfold applyLine
    rw [hl]
    rfl
  have hflat : ((pre ++ l :: post).map (applyLine
      (targetStartOf (df.getD recordId default)) .delete none now)).flatten =
      pre ++ post := by
    rw [List.map_append, List.map_cons, List.flatten_append, List.flatten_cons,
      hpre, hpost, hmid, List.nil_append]
  simp only [execute_github_action, hid, if_true, hsplit, hflat]

/-- With exactly one matching line, update replaces it in place by the
freshly encoded line stamped with `now`. -/
theorem execute_update_unique (df : List ParsedRecord) (recordId : Nat)
    (full sha : String) (d : RecordData) (now : String) (hid : recordId < df.length)
    (pre post : List (List Char)) (l : List Char)
    (hsplit : pySplitLines (pstripChars full.data) = pre ++ l :: post)
    (hl : (targetStartOf (df.getD recordId default)).isPrefixOf l = true)
    (hothers : ∀ m ∈ pre ++ post,
      (targetStartOf (df.getD recordId default)).isPrefixOf m = false)
    (hstrip : pstripChars (recordLineChars now d ++ ['\n']) = recordLineChars now d) :
    execute_github_action df recordId (some (full, sha)) .update (some d) now =
      .success (String.mk (List.intercalate ['\n']
        (pre ++ recordLineChars now d :: post) ++ ['\n'])) := by
  have hpre : (pre.map (applyLine (targetStartOf (df.getD recordId default))
      .update (some d) now)).flatten = pre :=
    map_applyLine_no_match _ _ _ _ _ (fun m hm => hothers m (List.mem_append_left _ hm))
  have hpost : (post.map (applyLine (targetStartOf (df.getD recordId default))
      .update (some d) now)).flatten = post :=
    map_applyLine_no_match _ _ _ _ _ (fun m hm => hothers m (List.mem_append_right _ hm))
  have hmid : applyLine (targetStartOf (df.getD recordId default)) .update (some d) now l
      = [recordLineChars now d] := by
    unfold applyLine
    rw [hl]
    show [pstripChars (recordLineChars now d ++ ['\n'])] = [recordLineChars now d]
    rw [hstrip]
  have hflat : ((pre ++ l :: post).map (applyLine
      (targetStartOf (df.getD recordId default)) .update (some d) now)).flatten =
      pre ++ recordLineChars now d :: post := by
    rw [List.map_append, List.map_cons, List.flatten_append, List.flatten_cons,
      hpre, hpost, hmid, List.singleton_append]
  simp only [execute_github_action, hid, if_true, hsplit, hflat]

/-- Two prefixes of the same list with equal lengths are equal. -/
theorem isPrefixOf_length_eq {p q l : List Char} (hp : p.isPrefixOf l = true)
    (hq : q.isPrefixOf l = true) (hlen : p.length = q.length) : p = q := by
  induction p generalizing q l with
  | nil =>
    cases q with
    | nil => rfl
    | cons b q => simp at hlen
  | cons a p ih =>
    cases q with
    | nil => simp at hlen
    | cons b q =>
      cases l with
      | nil => simp [List.isPrefixOf] at hp
      | cons c l =>
        simp only [List.isPrefixOf, Bool.and_eq_true, beq_iff_eq] at hp hq
        obtain ⟨rfl, hp2⟩ := hp
        obtain ⟨rfl, hq2⟩ := hq
        simp only [List.length_cons] at hlen
        rw [ih hp2 hq2 (by omega)]

/-! ### Summary lemmas -/

theorem userTotal_cons (r : ParsedRecord) (df : List ParsedRecord) (u : String) :
    userTotal (r :: df) u = (if r.User == u then r.Total else 0) + userTotal df u := by
  cases h : r.User == u <;> simp [userTotal, List.filter_cons, h]

theorem totalExpense_cons (r : ParsedRecord) (df : List ParsedRecord) :
    totalExpense (r :: df) = r.Total + totalExpense df := by
  simp [totalExpense]

/-- When every payer is an allowed user, the three displayed per-user
figures account for the whole displayed total. -/
theorem totalExpense_split (df : List ParsedRecord)
    (h : ∀ r ∈ df, r.User ∈ ALLOWED_USERS) :
    totalExpense df =
      userTotal df "TWH" + userTotal df "TSH" + userTotal df "Olivia" := by
  induction df with
  | nil => simp [totalExpense, userTotal]
  | cons r df ih =>
    have hr := h r (List.mem_cons_self r df)
    have ih' := ih (fun x hx => h x (List.mem_cons_of_mem r hx))
    rw [totalExpense_cons, userTotal_cons, userTotal_cons, userTotal_cons, ih']
    simp only [ALLOWED_USERS, List.mem_cons, List.mem_singleton,
      List.not_mem_nil, or_false] at hr
    rcases hr with h1 | h1 | h1 <;> rw [h1] <;>
      simp only [show (("TWH" : String) == "TWH") = true from by decide,
        show (("TWH" : String) == "TSH") = false from by decide,
        show (("TWH" : String) == "Olivia") = false from by decide,
        show (("TSH" : String) == "TWH") = false from by decide,
        show (("TSH" : String) == "TSH") = true from by decide,
        show (("TSH" : String) == "Olivia") = false from by decide,
        show (("Olivia" : String) == "TWH") = false from by decide,
        show (("Olivia" : String) == "TSH") = false from by decide,
        show (("Olivia" : String) == "Olivia") = true from by decide,
        Bool.false_eq_true, eq_self_iff_true, if_true, if_false] <;> ring

/-! ### User-normalisation lemmas (C10) -/

theorem fixUser_mem (r : ParsedRecord) :
    (fixUser r).User ∈ ("Other" :: ALLOWED_USERS) := by
  unfold fixUser
  cases h : ALLOWED_USERS.contains r.User with
  | false => simp
  | true =>
    have hmem : r.User ∈ ALLOWED_USERS := by simpa using h
    simp only [List.mem_cons]
    exact Or.inr (by simpa [h] using hmem)

/-! ## Claims -/

/-! ### C2: encode/decode round-trip -/

/-- A concrete valid record for the C2 witness. -/
def c2Rec : ExpenseRecord :=
  { user_name := "TWH", shop_name := "FamilyMart", total_amount := 10050,
    currency := "HKD", transaction_date := "2024-01-02", remarks := "lunch",
    is_shared := "Yes", original_amount := 190000, original_currency := "JPY",
    conversion_notes := "Note (Rate: 1:0.0529)", timestamp := "2024-01-01 12:30:05" }

/-- C2: for every valid `ExpenseRecord`, encoding it to a ledger line
(`write_to_github_file`'s `record_text`) and decoding that line
(`read_and_parse_records_to_df`'s pattern plus `float()`+`strip()`) yields
a row equal to the original in every grammar-representable field
(`toParsed` maps each record field to its parsed image verbatim, amounts as
their exact 2-decimal values); moreover both amounts are rendered with
exactly two decimal places, and a valid record's currency codes are 3
uppercase letters by `ValidRecord`. -/
theorem C2_roundtrip (r : ExpenseRecord) (h : ValidRecord r) :
    decodeChars (recordLineChars r.timestamp r.toRecordData) = .parsed (toParsed r) ∧
    twoDecimalRendering r.total_amount ∧ twoDecimalRendering r.original_amount :=
  ⟨decodeChars_recordLine r h, twoDecimalRendering_all _, twoDecimalRendering_all _⟩

/-- Witness for C2 at a concrete record. -/
theorem C2_witness :
    ValidRecord c2Rec ∧
    decodeChars (recordLineChars c2Rec.timestamp c2Rec.toRecordData) =
      .parsed (toParsed c2Rec) :=
  ⟨by decide, (C2_roundtrip c2Rec (by decide)).1⟩

/-! ### C3: malformed lines are skipped — but a matching line with a
non-numeric amount raises -/

/-- A fully well-formed ledger line. -/
def c3GoodLine : String :=
  "[2024-01-02 10:00:00] User: TSH, Shop: Cafe, Total: 20.00 HKD, Date: 2024-01-02, Remarks: tea, Shared: No, OriginalAmount: 20.00, OriginalCurrency: HKD, Conversion: N/A"

/-- The same line with the `Remarks` field missing entirely. -/
def c3BadLine : String :=
  "[2024-01-02 11:00:00] User: TSH, Shop: Cafe, Total: 20.00 HKD, Date: 2024-01-02, Shared: No, OriginalAmount: 20.00, OriginalCurrency: HKD, Conversion: N/A"

def c3Text : String := c3GoodLine ++ "\n" ++ c3BadLine

/-- The parse of `c3GoodLine`. -/
def c3GoodRec : ParsedRecord :=
  { timestamp := "2024-01-02 10:00:00", User := "TSH", Shop := "Cafe",
    Total := mkRat 2000 100, Currency := "HKD", Date := "2024-01-02",
    Remarks := "tea", Shared := "No", OriginalAmount := mkRat 2000 100,
    OriginalCurrency := "HKD", Conversion := "N/A" }

/-- A line that matches the pattern but whose `Total` group `"x"` is not a
float literal, so `float(...)` raises. -/
def c3CrashLine : String :=
  "[2024-01-03 09:00:00] User: TWH, Shop: Bar, Total: x HKD, Date: 2024-01-03, Remarks: r, Shared: No, OriginalAmount: 0.00, OriginalCurrency: HKD, Conversion: N/A"

/-- C3 counterexample: decoding can raise.  `c3CrashLine` matches the fixed
grammar (the loop body reaches `float()`, producing a `ValueError`, not a
skip), and reading a ledger containing it aborts with an error instead of
skipping the line — refuting "decoding … never raises". -/
theorem C3_counterexample :
    decodeChars c3CrashLine.data = .badNumber ∧
    parseLedger (some c3CrashLine) = .error := by
  constructor
  · decide
  · decide

/-- C3 amended: decoding skips exactly the lines that do not match the
fixed grammar and never aborts **provided** no matching line's numeric
fields fail `float()` conversion; in particular a text with one
well-formed line and one missing-field line parses to exactly one record.
(As stated the claim is false: a matching line with a non-numeric amount
raises — see the counterexample.) -/
theorem C3_amended :
    (∀ ls : List (List Char), (∀ l ∈ ls, decodeChars l ≠ .badNumber) →
      parseLines ls = .ok (ls.filterMap fun l =>
        match decodeChars l with
        | .parsed r => some r
        | _ => none)) ∧
    parseLedger (some c3Text) = .ok [c3GoodRec] :=
  ⟨parseLines_no_bad, by decide⟩

/-- Witness for C3 at the two concrete lines. -/
theorem C3_witness :
    parseLines [c3GoodLine.data, c3BadLine.data] = .ok [c3GoodRec] := by
  rw [C3_amended.1 [c3GoodLine.data, c3BadLine.data] (by decide)]
  decide

/-! ### C9: absent or empty ledger -/

/-- C9: an absent blob (`read_full_content` returning `(None, None)`) and an
empty blob both parse to zero records rather than an error, and an append
against an absent blob succeeds by creating the file with exactly the new
record text (`(full_content or "") + record_text` + `create_file`). -/
theorem C9_empty_ledger :
    parseLedger none = .ok [] ∧ parseLedger (some "") = .ok [] ∧
    ∀ (now : String) (d : RecordData),
      write_to_github_file none now d = .createFile (recordText now d) := by
  refine ⟨rfl, by decide, ?_⟩
  intro now d
  unfold write_to_github_file
  have h : ∀ s : String, "" ++ s = s := fun s => by cases s with | mk l => rfl
  rw [h]

/-! ### C10: payers outside the allowed set become `Other` -/

/-- A ledger line whose payer `Bob` is not an allowed user. -/
def c10Line : String :=
  "[2024-01-04 08:00:00] User: Bob, Shop: Cafe, Total: 10.00 HKD, Date: 2024-01-04, Remarks: , Shared: No, OriginalAmount: 10.00, OriginalCurrency: HKD, Conversion: N/A"

/-- Its parse after the `User` normalisation. -/
def c10Rec : ParsedRecord :=
  { timestamp := "2024-01-04 08:00:00", User := "Other", Shop := "Cafe",
    Total := mkRat 1000 100, Currency := "HKD", Date := "2024-01-04",
    Remarks := "", Shared := "No", OriginalAmount := mkRat 1000 100,
    OriginalCurrency := "HKD", Conversion := "N/A" }

/-- C10: the parse pipeline maps any payer outside
`{TWH, TSH, Olivia}` to `Other`, so every parsed record's payer lies in
`{Other, TWH, TSH, Olivia}`. -/
theorem C10_other_payer :
    (∀ (content : Option String) (rs : List ParsedRecord),
      readAndParseRecords content = .ok rs →
      ∀ r ∈ rs, r.User ∈ ("Other" :: ALLOWED_USERS)) ∧
    (∀ r : ParsedRecord, r.User ∉ ALLOWED_USERS → (fixUser r).User = "Other") := by
  constructor
  · intro content rs h r hr
    unfold readAndParseRecords at h
    cases hpl : parseLedger content with
    | error => rw [hpl] at h; exact absurd h (by simp)
    | ok rs0 =>
      rw [hpl] at h
      have hrs : rs = rs0.map fixUser := by
        cases h
        rfl
      subst hrs
      obtain ⟨r0, _, rfl⟩ := List.mem_map.mp hr
      exact fixUser_mem r0
  · intro r hru
    unfold fixUser
    have hc : ALLOWED_USERS.contains r.User = false := by simpa using hru
    rw [hc]
    rfl

/-- Witness for C10: a line by `Bob` parses to a record with payer
`Other`, inside the allowed display set. -/
theorem C10_witness :
    readAndParseRecords (some c10Line) = .ok [c10Rec] ∧
    ∀ r ∈ [c10Rec], r.User ∈ ("Other" :: ALLOWED_USERS) :=
  ⟨by decide, fun r hr => C10_other_payer.1 (some c10Line) [c10Rec] (by decide) r hr⟩

/-! ### C1: the summary computes totals, not a settlement balance -/

/-- A single shared record of 100 (HKD) paid by TWH. -/
def c1Rec : ParsedRecord :=
  { timestamp := "2024-01-01 00:00:00", User := "TWH", Shop := "Dinner",
    Total := 100, Currency := "HKD", Date := "2024-01-01", Remarks := "",
    Shared := "Yes", OriginalAmount := 100, OriginalCurrency := "HKD",
    Conversion := "N/A" }

/-- C1 counterexample: the claim says that for the record set
`[{payer=TWH, amount=100, shared}]` the program's result is "B owes A 50".
`calculate_and_display_summary` is the only computation the program derives
from a parsed record set, and on this input it displays the overall total
100 and the per-user totals (100, 0, 0): no displayed figure is the
settlement balance 50 that §4.3 of the spec (here `specSettlementBalance`)
prescribes, and no `paid − should_pay` quantity is computed at all. -/
theorem C1_counterexample :
    calculate_and_display_summary [c1Rec] =
      (100, [("TWH", 100), ("TSH", 0), ("Olivia", 0)]) ∧
    specSettlementBalance [("TWH", 100)] "TWH" = 50 ∧
    (calculate_and_display_summary [c1Rec]).1 ≠ 50 ∧
    ∀ p ∈ (calculate_and_display_summary [c1Rec]).2, p.2 ≠ 50 := by
  have hsum : calculate_and_display_summary [c1Rec] =
      (100, [("TWH", 100), ("TSH", 0), ("Olivia", 0)]) := by
    norm_num [calculate_and_display_summary, totalExpense, userTotal,
      ALLOWED_USERS, c1Rec, List.filter,
      show (("TWH" : String) == "TWH") = true from by decide,
      show (("TWH" : String) == "TSH") = false from by decide,
      show (("TWH" : String) == "Olivia") = false from by decide]
  refine ⟨hsum, ?_, ?_, ?_⟩
  · norm_num [specSettlementBalance, List.filter]
  · rw [hsum]; norm_num
  · rw [hsum]; norm_num

/-- C1 amended: the program computes an overall total and per-user totals
of `Total_HKD_Value`, not a two-party settlement; when every payer is an
allowed user the three displayed per-user figures sum to the displayed
total, and for `[{payer=TWH, amount=100, shared}]` the summary shows total
100 with (TWH, TSH, Olivia) = (100, 0, 0). -/
theorem C1_amended :
    (∀ df : List ParsedRecord, (∀ r ∈ df, r.User ∈ ALLOWED_USERS) →
      totalExpense df =
        userTotal df "TWH" + userTotal df "TSH" + userTotal df "Olivia") ∧
    calculate_and_display_summary [c1Rec] =
      (100, [("TWH", 100), ("TSH", 0), ("Olivia", 0)]) := by
  constructor
  · exact totalExpense_split
  · norm_num [calculate_and_display_summary, totalExpense, userTotal,
      ALLOWED_USERS, c1Rec, List.filter,
      show (("TWH" : String) == "TWH") = true from by decide,
      show (("TWH" : String) == "TSH") = false from by decide,
      show (("TWH" : String) == "Olivia") = false from by decide]

/-- Witness for C1 at the concrete one-record set. -/
theorem C1_witness :
    totalExpense [c1Rec] =
      userTotal [c1Rec] "TWH" + userTotal [c1Rec] "TSH" + userTotal [c1Rec] "Olivia" :=
  C1_amended.1 [c1Rec] (by decide)

/-! ### C4: delete removes every prefix-matching line -/

/-- The cached row targeted for deletion. -/
def c4Row : ParsedRecord :=
  { timestamp := "2024-01-01 00:00:00", User := "TWH", Shop := "A",
    Total := mkRat 1000 100, Currency := "HKD", Date := "2024-01-01",
    Remarks := "", Shared := "No", OriginalAmount := mkRat 1000 100,
    OriginalCurrency := "HKD", Conversion := "N/A" }

def c4L1 : String := "[2024-01-01 00:00:00] User: TWH, Shop: A"

def c4L2 : String := "[2024-01-01 00:00:00] User: TWH, Shop: B"

def c4Content : String := c4L1 ++ "\n" ++ c4L2 ++ "\n"

def c4ContentW : String := c4L1 ++ "\n" ++ "xx" ++ "\n" ++ "yy" ++ "\n"

/-- C4 counterexample: the ledger has two distinct lines sharing the
timestamp+payer prefix of the target record; deleting the target removes
*both* lines (the rewritten text is just a newline), so the operation does
not remove exactly one line and does not preserve the other line. -/
theorem C4_counterexample :
    execute_github_action [c4Row] 0 (some (c4Content, "sha")) .delete none "" =
      .success "\n" ∧
    pySplitLines (pstripChars c4Content.data) = [c4L1.data, c4L2.data] ∧
    c4L1 ≠ c4L2 := by
  refine ⟨by decide, by decide, by decide⟩

/-- C4 amended: when exactly one line of the ledger starts with the target
record's timestamp+payer prefix, delete removes exactly that line and the
rewritten text consists of every other line, byte-identical and in the
original order.  (With several matching lines the loop removes all of
them — see the counterexample.) -/
theorem C4_delete (df : List ParsedRecord) (recordId : Nat)
    (full sha now : String) (hid : recordId < df.length)
    (pre post : List (List Char)) (l : List Char)
    (hsplit : pySplitLines (pstripChars full.data) = pre ++ l :: post)
    (hl : (targetStartOf (df.getD recordId default)).isPrefixOf l = true)
    (hothers : ∀ m ∈ pre ++ post,
      (targetStartOf (df.getD recordId default)).isPrefixOf m = false) :
    execute_github_action df recordId (some (full, sha)) .delete none now =
      .success (String.mk (List.intercalate ['\n'] (pre ++ post) ++ ['\n'])) :=
  execute_delete_unique df recordId full sha now hid pre post l hsplit hl hothers

/-- Witness for C4: deleting the only matching line of a three-line ledger
keeps the two other lines verbatim. -/
theorem C4_witness :
    execute_github_action [c4Row] 0 (some (c4ContentW, "s")) .delete none "" =
      .success "xx\nyy\n" := by
  rw [C4_delete [c4Row] 0 c4ContentW "s" "" (by decide) []
    [("xx").data, ("yy").data] c4L1.data (by decide) (by decide) (by decide)]
  decide

/-! ### C5: a zero-match edit/delete is a silent no-op, not NotFound -/

def c5Row : ParsedRecord :=
  { timestamp := "2024-01-01 00:00:00", User := "TWH", Shop := "A",
    Total := mkRat 1000 100, Currency := "HKD", Date := "2024-01-01",
    Remarks := "", Shared := "No", OriginalAmount := mkRat 1000 100,
    OriginalCurrency := "HKD", Conversion := "N/A" }

def c5Content : String := "some unrelated line\n"

/-- C5 counterexample: the cached row exists but no current ledger line
carries its prefix (e.g. after a concurrent delete).  The operation does
not signal any NotFound: it completes with success, rewriting the file
with the same lines.  (`ActionResult` has no not-found constructor because
`execute_github_action` has no such path.) -/
theorem C5_counterexample :
    execute_github_action [c5Row] 0 (some (c5Content, "sha")) .delete none "" =
      .success c5Content ∧
    ((pySplitLines (pstripChars c5Content.data)).filter
      (fun l => (targetStartOf ([c5Row].getD 0 default)).isPrefixOf l)).length = 0 := by
  refine ⟨by decide, by decide⟩

/-- C5 amended: when zero lines match the timestamp+payer prefix, the
operation completes as a silent no-op: it reports success and the
rewritten text consists of exactly the original lines (no unrelated line
is modified); no NotFound is signalled to the caller. -/
theorem C5_silent_noop (df : List ParsedRecord) (recordId : Nat)
    (full sha : String) (action : GAction) (newData : Option RecordData)
    (now : String) (hid : recordId < df.length)
    (hnm : ∀ l ∈ pySplitLines (pstripChars full.data),
      (targetStartOf (df.getD recordId default)).isPrefixOf l = false) :
    execute_github_action df recordId (some (full, sha)) action newData now =
      .success (String.mk (List.intercalate ['\n']
        (pySplitLines (pstripChars full.data)) ++ ['\n'])) :=
  execute_no_match df recordId full sha action newData now hid hnm

/-- Witness for C5 at a concrete ledger with no matching line. -/
theorem C5_witness :
    execute_github_action [c5Row] 0 (some (c5Content, "sha")) .update none "t" =
      .success "some unrelated line\n" := by
  rw [C5_silent_noop [c5Row] 0 c5Content "sha" .update none "t" (by decide) (by decide)]
  decide

/-! ### C8: update rewrites the matching line with an edit-time stamp -/

def c8Row : ParsedRecord :=
  { timestamp := "2024-01-01 00:00:00", User := "TWH", Shop := "A",
    Total := mkRat 1000 100, Currency := "HKD", Date := "2024-01-01",
    Remarks := "", Shared := "No", OriginalAmount := mkRat 1000 100,
    OriginalCurrency := "HKD", Conversion := "N/A" }

def c8Upd : RecordData :=
  { user_name := "TSH", shop_name := "NewShop", total_amount := 5000,
    currency := "HKD", transaction_date := "2024-01-02", remarks := "edited",
    is_shared := "No", original_amount := 5000, original_currency := "HKD",
    conversion_notes := "Manually Edited" }

def c8Content : String := "[2024-01-01 00:00:00] User: TWH, Shop: A\n"

/-- C8: with one matching line, update replaces exactly that line, in
place, by the freshly encoded line for the new data; the new line opens
with `[now]` where `now` is the edit moment (`datetime.now()`), and any
equal-length timestamp whose bracket heads the new line must *be* `now` —
the original creation timestamp is overwritten. -/
theorem C8_update_timestamp (df : List ParsedRecord) (recordId : Nat)
    (full sha : String) (d : RecordData) (now : String)
    (hid : recordId < df.length)
    (pre post : List (List Char)) (l : List Char)
    (hsplit : pySplitLines (pstripChars full.data) = pre ++ l :: post)
    (hl : (targetStartOf (df.getD recordId default)).isPrefixOf l = true)
    (hothers : ∀ m ∈ pre ++ post,
      (targetStartOf (df.getD recordId default)).isPrefixOf m = false)
    (hstrip : pstripChars (recordLineChars now d ++ ['\n']) = recordLineChars now d) :
    execute_github_action df recordId (some (full, sha)) .update (some d) now =
      .success (String.mk (List.intercalate ['\n']
        (pre ++ recordLineChars now d :: post) ++ ['\n'])) ∧
    (("[").data ++ now.data ++ ("]").data).isPrefixOf (recordLineChars now d) = true ∧
    (∀ ts : String, ts.data.length = now.data.length →
      (("[").data ++ ts.data ++ ("]").data).isPrefixOf (recordLineChars now d) = true →
      ts = now) := by
  have hdecomp : recordLineChars now d =
      (("[").data ++ now.data ++ ("]").data) ++
        ((" User: ").data ++ d.user_name.data ++ (", Shop: ").data ++
         d.shop_name.data ++ (", Total: ").data ++ fmtCentsChars d.total_amount ++
         (" ").data ++ d.currency.data ++ (", Date: ").data ++
         d.transaction_date.data ++ (", Remarks: ").data ++ d.remarks.data ++
         (", Shared: ").data ++ d.is_shared.data ++ (", OriginalAmount: ").data ++
         fmtCentsChars d.original_amount ++ (", OriginalCurrency: ").data ++
         d.original_currency.data ++ (", Conversion: ").data ++
         d.conversion_notes.data) := by
    unfold recordLineChars
    rw [show ("] User: ").data = ("]").data ++ (" User: ").data from by decide]
    simp [List.append_assoc]
  have hpref : (("[").data ++ now.data ++ ("]").data).isPrefixOf
      (recordLineChars now d) = true := by
    rw [hdecomp]
    exact isPrefixOf_append_self _ _
  refine ⟨execute_update_unique df recordId full sha d now hid pre post l
    hsplit hl hothers hstrip, hpref, ?_⟩
  intro ts hlen hts
  have heq : ("[").data ++ ts.data ++ ("]").data =
      ("[").data ++ now.data ++ ("]").data :=
    isPrefixOf_length_eq hts hpref (by simp [hlen])
  rw [show ("[").data = ['['] from by decide] at heq
  simp only [List.cons_append, List.nil_append, List.cons.injEq, true_and] at heq
  have hdata : ts.data = now.data := List.append_inj_left heq (by simp [hlen])
  calc ts = String.mk ts.data := rfl
    _ = String.mk now.data := by rw [hdata]
    _ = now := rfl

/-- Witness for C8 at a concrete update. -/
theorem C8_witness :
    execute_github_action [c8Row] 0 (some (c8Content, "s")) .update (some c8Upd)
        "2025-05-05 05:05:05" =
      .success (String.mk (List.intercalate ['\n']
        ([] ++ recordLineChars "2025-05-05 05:05:05" c8Upd :: []) ++ ['\n'])) :=
  (C8_update_timestamp [c8Row] 0 c8Content "s" c8Upd "2025-05-05 05:05:05"
    (by decide) [] [] (("[2024-01-01 00:00:00] User: TWH, Shop: A").data)
    (by decide) (by decide) (by decide) (by decide)).1

/-! ### C6: a failed rate lookup degrades gracefully -/

/-- C6: for a submission whose (upper-cased) currency is a target currency
(so conversion is required), if `convert_currency` yields no positive rate
(missing API key, request failure, non-success response, or a non-positive
`conversion_rate`), the `final_record` is still built — the write path
proceeds unconditionally after the branch — with the original amount and
original currency preserved in both the stored and the audit fields, and
with the conversion note of the failure branch. -/
theorem C6_rate_failure (user rem : String) (sh : Bool) (ocr : OcrData)
    (key : Bool) (api : Option ℚ)
    (htarget : TARGET_CURRENCIES.contains (strUpper ocr.currency) = true)
    (hfail : (convert_currency ocr.total_amount (strUpper ocr.currency) key api).2.2 ≤ 0) :
    (buildFinalRecord user rem sh ocr key api).total_amount = ocr.total_amount ∧
    (buildFinalRecord user rem sh ocr key api).currency = strUpper ocr.currency ∧
    (buildFinalRecord user rem sh ocr key api).original_amount = ocr.total_amount ∧
    (buildFinalRecord user rem sh ocr key api).original_currency = strUpper ocr.currency ∧
    (buildFinalRecord user rem sh ocr key api).conversion_notes =
      .failedKeepOriginal ocr.total_amount (strUpper ocr.currency) := by
  unfold buildFinalRecord
  simp only [htarget, if_true]
  rw [if_neg (not_lt.mpr hfail)]
  exact ⟨rfl, rfl, rfl, rfl, rfl⟩

/-- A JPY receipt for the C6 witness. -/
def c6Ocr : OcrData :=
  { shop_name := "Ramen", total_amount := mkRat 190000 100, currency := "JPY",
    transaction_date := "2024-01-05" }

/-- Witness for C6: rate lookup fails (`api = none`) on a JPY amount. -/
theorem C6_witness :
    (buildFinalRecord "TWH" "" true c6Ocr true none).total_amount = c6Ocr.total_amount ∧
    (buildFinalRecord "TWH" "" true c6Ocr true none).currency = strUpper c6Ocr.currency ∧
    (buildFinalRecord "TWH" "" true c6Ocr true none).original_amount = c6Ocr.total_amount ∧
    (buildFinalRecord "TWH" "" true c6Ocr true none).original_currency =
      strUpper c6Ocr.currency ∧
    (buildFinalRecord "TWH" "" true c6Ocr true none).conversion_notes =
      .failedKeepOriginal c6Ocr.total_amount (strUpper c6Ocr.currency) :=
  C6_rate_failure "TWH" "" true c6Ocr true none (by decide) (by decide)

/-! ### C7: the stored currency is not always the base currency -/

/-- A JPY receipt whose conversion will fail. -/
def c7Ocr : OcrData :=
  { shop_name := "Shop", total_amount := mkRat 5000 100, currency := "JPY",
    transaction_date := "2024-01-06" }

/-- C7 counterexample: when the JPY→HKD rate lookup fails, the record is
built with `currency = "JPY"` — the original transaction currency, not the
base currency — refuting the claimed invariant. -/
theorem C7_counterexample :
    (buildFinalRecord "TWH" "" false c7Ocr true none).currency = "JPY" ∧
    (buildFinalRecord "TWH" "" false c7Ocr true none).total_amount =
      c7Ocr.total_amount ∧
    "JPY" ≠ BASE_CURRENCY := by
  refine ⟨by decide, by decide, by decide⟩

/-- C7 amended: the stored currency code equals the base currency in every
case except one — a target-currency submission whose rate lookup yields no
positive rate, which is stored under the original currency with the
unconverted amount. -/
theorem C7_base_currency (user rem : String) (sh : Bool) (ocr : OcrData)
    (key : Bool) (api : Option ℚ) :
    (buildFinalRecord user rem sh ocr key api).currency = BASE_CURRENCY ∨
    (TARGET_CURRENCIES.contains (strUpper ocr.currency) = true ∧
      (convert_currency ocr.total_amount (strUpper ocr.currency) key api).2.2 ≤ 0 ∧
      (buildFinalRecord user rem sh ocr key api).currency = strUpper ocr.currency ∧
      (buildFinalRecord user rem sh ocr key api).total_amount = ocr.total_amount) := by
  by_cases ht : TARGET_CURRENCIES.contains (strUpper ocr.currency) = true
  · by_cases hr :
      0 < (convert_currency ocr.total_amount (strUpper ocr.currency) key api).2.2
    · left
      unfold buildFinalRecord
      simp only [ht, if_true]
      rw [if_pos hr]
    · right
      refine ⟨ht, not_lt.mp hr, ?_, ?_⟩ <;>
        · unfold buildFinalRecord
          simp only [ht, if_true]
          rw [if_neg hr]
  · left
    unfold buildFinalRecord
    simp only [Bool.not_eq_true] at ht
    simp only [ht, Bool.false_eq_true, if_false]

end TravelExpense
